import Mathlib

/-!
Shallow embedding of the AI Context Server (`ai-context-server.py`):
the snapshot scanner (`scan_codebase`), the content search endpoint
(`search_content`), the history query (`get_history`) and the in-memory
snapshot cache, together with theorems about the frozen claims.

Modelling conventions:
- Machine strings are Lean `String` (list-of-char backed); Python
  `str.lower()` is modelled on the ASCII range, `str.strip()` strips the
  usual ASCII whitespace, `str.splitlines()` is modelled with the newline
  character as the (only) line terminator.
- The filesystem seen by one `rglob` walk is a list of entries in walk
  order; each entry records its path parts relative to the project root,
  whether it is a regular file, its (lowercased-later) suffix, the result
  of `stat()` (`none` = raises) and the result of reading it as utf-8
  text (`text`, `decodeError` for `UnicodeDecodeError`, `ioError` for any
  other exception, caught by the outer `except` in the source).
- `hashlib.md5(...).hexdigest()` is an arbitrary function
  `hash : String → String`, passed as a parameter; every theorem holds
  for all such functions.
- Fallible request handlers return `Except`.
-/

/-- ASCII whitespace test, modelling the characters stripped by `str.strip()`. -/
def isSpaceChar (c : Char) : Bool :=
  c = ' ' || c = '\t' || c = '\n' || c = '\r'

/-- Model of Python `str.strip()`. -/
def pyStrip (s : String) : String :=
  String.mk (((s.data.dropWhile isSpaceChar).reverse.dropWhile isSpaceChar).reverse)

/-- Lowercase one ASCII letter, other characters unchanged. -/
def asciiLower (c : Char) : Char :=
  if 'A' ≤ c ∧ c ≤ 'Z' then Char.ofNat (c.toNat + 32) else c

/-- Model of Python `str.lower()` (ASCII range). -/
def pyLower (s : String) : String :=
  String.mk (s.data.map asciiLower)

/-- Split a character list on the newline character; never returns `[]`. -/
def splitOnNl : List Char → List (List Char)
  | [] => [[]]
  | c :: cs =>
    if c = '\n' then [] :: splitOnNl cs
    else
      match splitOnNl cs with
      | [] => [[c]]
      | p :: ps => (c :: p) :: ps

/-- Model of Python `str.splitlines()` with the newline character as line
terminator: the empty string has no lines, and a trailing newline does not
produce a final empty line. -/
def splitlines (s : String) : List String :=
  if s.data.isEmpty then []
  else
    (splitOnNl (if s.data.getLast? = some '\n' then s.data.dropLast else s.data)).map
      String.mk

/-- Is `sub` a prefix of `l` (character lists)? -/
def charsHavePre (sub l : List Char) : Bool :=
  match sub, l with
  | [], _ => true
  | _ :: _, [] => false
  | a :: as, b :: bs => a = b && charsHavePre as bs

/-- Does `l` contain `sub` as a contiguous run? -/
def charsContain (sub : List Char) : List Char → Bool
  | [] => sub.isEmpty
  | c :: cs => charsHavePre sub (c :: cs) || charsContain sub cs

/-- Model of Python substring containment `sub in s`. -/
def strContains (s sub : String) : Bool :=
  charsContain sub.data s.data

/-- One tracked file at scan time (`FileInfo` dataclass of the source). -/
structure FileInfo where
  path : String
  size : Nat
  modified : Int
  content_hash : String
  file_type : String
  lines : Nat
deriving DecidableEq

/-- A point-in-time index (`CodebaseSnapshot` dataclass of the source). -/
structure CodebaseSnapshot where
  timestamp : Int
  total_files : Nat
  total_lines : Nat
  file_types : List (String × Nat)
  files : List FileInfo
deriving DecidableEq

/-- Outcome of `open(file_path, encoding=utf-8).read()` for one file during
the scan: decoded text, a `UnicodeDecodeError`, or any other exception
(caught by the enclosing broad `except`). -/
inductive ReadResult where
  | text (content : String)
  | decodeError
  | ioError
deriving DecidableEq

/-- One entry yielded by `project_root.rglob` during a scan, in walk order.
`relParts` are the path components below the project root (the last one is
the entry's own name); `ext` is the entry's suffix as `Path.suffix` returns
it (lowercased by the scanner itself); `statRes = none` models `stat()`
raising. -/
structure FsEntry where
  relParts : List String
  isFile : Bool
  ext : String
  statRes : Option (Nat × Int)
  readRes : ReadResult
deriving DecidableEq

/-- The `ignore_dirs` set of `scan_codebase`. -/
def ignore_dirs : List String :=
  ["target", ".git", "node_modules", ".next", "dist",
   "build", "__pycache__", ".vscode", ".idea", "export"]

/-- The `code_extensions` mapping of `scan_codebase`. -/
def code_extensions (ext : String) : Option String :=
  if ext = ".rs" then some "rust"
  else if ext = ".py" then some "python"
  else if ext = ".js" then some "javascript"
  else if ext = ".ts" then some "typescript"
  else if ext = ".proto" then some "protobuf"
  else if ext = ".sql" then some "sql"
  else if ext = ".toml" then some "toml"
  else if ext = ".yaml" then some "yaml"
  else if ext = ".yml" then some "yaml"
  else if ext = ".json" then some "json"
  else if ext = ".md" then some "markdown"
  else if ext = ".sh" then some "shell"
  else if ext = ".txt" then some "text"
  else if ext = ".lisp" then some "lisp"
  else if ext = ".cbu" then some "cbu-dsl"
  else none

/-- `str(file_path.relative_to(project_root))`: the tree-relative path. -/
def relPathStr (parts : List String) : String :=
  String.intercalate "/" parts

/-- `str(file_path)`: the absolute path of an entry (root parts, then the
entry's parts below the root). -/
def absPathStr (root parts : List String) : String :=
  "/" ++ String.intercalate "/" (root ++ parts)

/-- `d[k] = d.get(k, 0) + 1` on an insertion-ordered association list,
modelling the `file_types` dict update. -/
def bumpCount (m : List (String × Nat)) (k : String) : List (String × Nat) :=
  match m with
  | [] => [(k, 1)]
  | (k', v) :: rest => if k' = k then (k', v + 1) :: rest else (k', v) :: bumpCount rest k

/-- `d.get(k, 0)` on an insertion-ordered association list. -/
def lookupCount (m : List (String × Nat)) (k : String) : Nat :=
  match m with
  | [] => 0
  | (k', v) :: rest => if k' = k then v else lookupCount rest k

/-- Running accumulator of the `scan_codebase` loop: the `files` list, the
`total_lines` counter and the `file_types` dict. -/
structure ScanAcc where
  files : List FileInfo
  total_lines : Nat
  file_types : List (String × Nat)
deriving DecidableEq

/-- Body of the `for file_path in self.project_root.rglob('*')` loop of
`scan_codebase`: skip entries with an ignored path segment (checked on the
absolute path's parts), skip non-files and unknown extensions, skip entries
whose `stat`/`open` raises (the broad `except` with `continue`), hash the
decoded content and count its lines, or on `UnicodeDecodeError` hash the
absolute path string with zero lines. -/
def processEntry (hash : String → String) (root : List String) (acc : ScanAcc)
    (e : FsEntry) : ScanAcc :=
  if (root ++ e.relParts).any (fun part => ignore_dirs.contains part) then acc
  else if e.isFile then
    match code_extensions (pyLower e.ext) with
    | none => acc
    | some file_type =>
      match e.statRes with
      | none => acc
      | some (size, modified) =>
        match e.readRes with
        | ReadResult.ioError => acc
        | ReadResult.text content =>
          let content_hash := hash content
          let lines := (splitlines content).length
          { files := acc.files ++
              [{ path := relPathStr e.relParts, size := size, modified := modified,
                 content_hash := content_hash, file_type := file_type, lines := lines }],
            total_lines := acc.total_lines + lines,
            file_types := bumpCount acc.file_types file_type }
        | ReadResult.decodeError =>
          let content_hash := hash (absPathStr root e.relParts)
          { files := acc.files ++
              [{ path := relPathStr e.relParts, size := size, modified := modified,
                 content_hash := content_hash, file_type := file_type, lines := 0 }],
            total_lines := acc.total_lines,
            file_types := bumpCount acc.file_types file_type }
  else acc

/-- `scan_codebase`: walk all entries, then build the snapshot with
`total_files = len(files)` and the accumulated totals. `ts` is the
`time.time()` value taken when the snapshot is built. -/
def scan_codebase (hash : String → String) (ts : Int) (root : List String)
    (entries : List FsEntry) : CodebaseSnapshot :=
  let acc := entries.foldl (processEntry hash root)
    { files := [], total_lines := 0, file_types := [] }
  { timestamp := ts, total_files := acc.files.length, total_lines := acc.total_lines,
    file_types := acc.file_types, files := acc.files }

/-- The `FileInfo` record (if any) that a single walk entry contributes to
the snapshot; mirrors `processEntry` branch by branch. -/
def entryRes (hash : String → String) (root : List String) (e : FsEntry) :
    Option FileInfo :=
  if (root ++ e.relParts).any (fun part => ignore_dirs.contains part) then none
  else if e.isFile then
    match code_extensions (pyLower e.ext) with
    | none => none
    | some file_type =>
      match e.statRes with
      | none => none
      | some (size, modified) =>
        match e.readRes with
        | ReadResult.ioError => none
        | ReadResult.text content =>
          some { path := relPathStr e.relParts, size := size, modified := modified,
                 content_hash := hash content, file_type := file_type,
                 lines := (splitlines content).length }
        | ReadResult.decodeError =>
          some { path := relPathStr e.relParts, size := size, modified := modified,
                 content_hash := hash (absPathStr root e.relParts), file_type := file_type,
                 lines := 0 }
  else none

theorem processEntry_eq (hash : String → String) (root : List String) (acc : ScanAcc)
    (e : FsEntry) :
    processEntry hash root acc e =
      match entryRes hash root e with
      | none => acc
      | some r =>
        { files := acc.files ++ [r], total_lines := acc.total_lines + r.lines,
          file_types := bumpCount acc.file_types r.file_type } := by
  unfold processEntry entryRes
  repeat' split
  all_goals try rfl
  all_goals rename_i heq
  all_goals try (cases heq)
  all_goals rfl

theorem foldl_processEntry (hash : String → String) (root : List String) :
    ∀ (l : List FsEntry) (acc : ScanAcc),
      l.foldl (processEntry hash root) acc =
        { files := acc.files ++ l.filterMap (entryRes hash root),
          total_lines :=
            acc.total_lines + ((l.filterMap (entryRes hash root)).map (fun r => r.lines)).sum,
          file_types :=
            (l.filterMap (entryRes hash root)).foldl
              (fun m r => bumpCount m r.file_type) acc.file_types }
  | [], acc => by simp
  | e :: l, acc => by
    rw [List.foldl_cons, foldl_processEntry hash root l, processEntry_eq]
    cases h : entryRes hash root e with
    | none => simp [List.filterMap_cons, h]
    | some r => simp [List.filterMap_cons, h, Nat.add_assoc]

theorem scan_eq (hash : String → String) (ts : Int) (root : List String)
    (entries : List FsEntry) :
    scan_codebase hash ts root entries =
      { timestamp := ts,
        total_files := (entries.filterMap (entryRes hash root)).length,
        total_lines := ((entries.filterMap (entryRes hash root)).map (fun r => r.lines)).sum,
        file_types :=
          (entries.filterMap (entryRes hash root)).foldl
            (fun m r => bumpCount m r.file_type) [],
        files := entries.filterMap (entryRes hash root) } := by
  unfold scan_codebase
  rw [foldl_processEntry]
  simp

theorem lookupCount_bumpCount (m : List (String × Nat)) (k' k : String) :
    lookupCount (bumpCount m k') k = lookupCount m k + (if k' = k then 1 else 0) := by
  induction m with
  | nil =>
    by_cases h : k' = k <;> simp [bumpCount, lookupCount, h]
  | cons a rest ih =>
    obtain ⟨ka, va⟩ := a
    simp only [bumpCount]
    by_cases h1 : ka = k'
    · subst h1
      simp only [if_pos rfl, lookupCount]
      by_cases h2 : ka = k <;> simp [h2]
    · simp only [if_neg h1, lookupCount]
      by_cases h2 : ka = k
      · subst h2
        have hk : ¬ k' = ka := fun h => h1 h.symm
        simp [hk]
      · simp [h2, ih]

theorem lookupCount_foldl_bump (rs : List FileInfo) :
    ∀ (m : List (String × Nat)) (k : String),
      lookupCount (rs.foldl (fun m r => bumpCount m r.file_type) m) k =
        lookupCount m k + (rs.filter (fun r => decide (r.file_type = k))).length := by
  induction rs with
  | nil => simp
  | cons r rest ih =>
    intro m k
    rw [List.foldl_cons, ih, lookupCount_bumpCount]
    by_cases h : r.file_type = k <;> simp [List.filter_cons, h] <;> omega

/-- Outcome of `open(project_root / file_info.path).read()` at search time:
decoded text, a `UnicodeDecodeError`, a `FileNotFoundError` (both caught by
the `except` clause of `search_content`), or any other exception (not
caught: it propagates out of the request handler). -/
inductive DiskRead where
  | text (content : String)
  | decodeError
  | notFound
  | otherError
deriving DecidableEq

/-- The ways the search request handler can fail: the empty-query client
error, or an uncaught exception while reading a file. -/
inductive SearchError where
  | invalidQuery
  | readError
deriving DecidableEq

/-- One matching line with its context window, as built by `search_content`. -/
structure SearchMatchEntry where
  line_number : Nat
  content : String
  context_before : List String
  context_after : List String
deriving DecidableEq

/-- Per-file search result (`file`, `file_type`, capped `matches`). -/
structure FileResult where
  file : String
  file_type : String
  matches' : List SearchMatchEntry
deriving DecidableEq

/-- The JSON payload of a successful search request. -/
structure SearchResponse where
  query : String
  results : List FileResult
  total_files_searched : Nat
  files_with_matches : Nat
deriving DecidableEq

/-- Python list slice `l[a:b]` for `0 ≤ a ≤ b` (as used in the search loop). -/
def pySlice (l : List α) (a b : Nat) : List α :=
  (l.drop a).take (b - a)

/-- Body of `for i, line in enumerate(lines)` in `search_content`: the match
entry produced for the line at 0-based index `i`, if it contains the query.
`context_before` is `lines[max(0, i-2):i] if i > 1 else []` and
`context_after` is `lines[i+1:min(len(lines), i+3)] if i < len(lines)-1
else []`, exactly as in the source. -/
def matchEntry (case_sensitive : Bool) (search_query : String) (lines : List String)
    (i : Nat) (line : String) : Option SearchMatchEntry :=
  let search_line := if case_sensitive then line else pyLower line
  if strContains search_line search_query then
    some { line_number := i + 1, content := pyStrip line,
           context_before := if i > 1 then pySlice lines (max 0 (i - 2)) i else [],
           context_after :=
             if i < lines.length - 1 then pySlice lines (i + 1) (min lines.length (i + 3))
             else [] }
  else none

/-- The `enumerate` loop of `search_content`, carrying the running index. -/
def matchLoop (case_sensitive : Bool) (search_query : String) (lines : List String) :
    Nat → List String → List SearchMatchEntry
  | _, [] => []
  | i, line :: rest =>
    match matchEntry case_sensitive search_query lines i line with
    | some m => m :: matchLoop case_sensitive search_query lines (i + 1) rest
    | none => matchLoop case_sensitive search_query lines (i + 1) rest

/-- All matching lines of a file, in line order (the `matching_lines` list). -/
def matchingLines (case_sensitive : Bool) (search_query : String)
    (lines : List String) : List SearchMatchEntry :=
  matchLoop case_sensitive search_query lines 0 lines

/-- The `if file_type and file_info.file_type != file_type: continue` test. -/
def typeSkip (file_type : Option String) (f : FileInfo) : Bool :=
  match file_type with
  | some tfil => decide (f.file_type ≠ tfil)
  | none => false

/-- The `for file_info in self.current_snapshot.files` loop of
`search_content`: skip filtered-out files; skip files whose read raises
`UnicodeDecodeError` or `FileNotFoundError`; let any other read exception
propagate (aborting the whole request); for readable files containing the
query, collect up to 10 matching lines. -/
def searchLoop (disk : String → DiskRead) (file_type : Option String)
    (case_sensitive : Bool) (search_query : String) :
    List FileInfo → Except SearchError (List FileResult)
  | [] => Except.ok []
  | f :: rest =>
    if typeSkip file_type f then
      searchLoop disk file_type case_sensitive search_query rest
    else
      match disk f.path with
      | DiskRead.notFound => searchLoop disk file_type case_sensitive search_query rest
      | DiskRead.decodeError => searchLoop disk file_type case_sensitive search_query rest
      | DiskRead.otherError => Except.error SearchError.readError
      | DiskRead.text content =>
        let searched := if case_sensitive then content else pyLower content
        if strContains searched search_query then
          let lines := splitlines content
          let matching := matchingLines case_sensitive search_query lines
          if matching.isEmpty then
            searchLoop disk file_type case_sensitive search_query rest
          else
            match searchLoop disk file_type case_sensitive search_query rest with
            | Except.error e => Except.error e
            | Except.ok tail =>
              Except.ok ({ file := f.path, file_type := f.file_type,
                           matches' := matching.take 10 } :: tail)
        else searchLoop disk file_type case_sensitive search_query rest

/-- The `/api/codebase/search` handler body: trim the query, reject it if
empty, case-fold it unless `case_sensitive`, walk the current snapshot's
files and assemble the response, with `total_files_searched` the size of
the whole (unfiltered) snapshot. `disk` gives each file's on-disk content
at query time. -/
def search_content (snapshot : CodebaseSnapshot) (disk : String → DiskRead)
    (q : String) (file_type : Option String) (case_sensitive : Bool) :
    Except SearchError SearchResponse :=
  let query := pyStrip q
  if query = "" then Except.error SearchError.invalidQuery
  else
    let search_query := if case_sensitive then query else pyLower query
    match searchLoop disk file_type case_sensitive search_query snapshot.files with
    | Except.error e => Except.error e
    | Except.ok results =>
      Except.ok { query := query, results := results,
                  total_files_searched := snapshot.files.length,
                  files_with_matches := results.length }

/-- One row of the `codebase_snapshots` table. -/
structure SnapshotRow where
  timestamp : Int
  total_files : Nat
  total_lines : Nat
  file_types : List (String × Nat)
  git_commit : Option String
deriving DecidableEq

/-- The JSON payload of the history request. -/
structure HistoryResponse where
  history : List SnapshotRow
  days : Int
deriving DecidableEq

/-- `ORDER BY timestamp DESC`: row `a` comes no later than row `b`. -/
def rowGe (a b : SnapshotRow) : Prop :=
  b.timestamp ≤ a.timestamp

instance : DecidableRel rowGe :=
  fun a b => inferInstanceAs (Decidable (b.timestamp ≤ a.timestamp))

instance : IsTotal SnapshotRow rowGe :=
  ⟨fun a b => le_total b.timestamp a.timestamp⟩

instance : IsTrans SnapshotRow rowGe :=
  ⟨fun _ _ _ hab hbc => le_trans hbc hab⟩

/-- The `/api/codebase/history` handler body: `SELECT ... FROM
codebase_snapshots WHERE timestamp > now - days*24*60*60 ORDER BY timestamp
DESC LIMIT 100`, over the stored rows. -/
def get_history (rows : List SnapshotRow) (now : Int) (days : Int) : HistoryResponse :=
  let cutoff := now - days * 24 * 60 * 60
  { history :=
      ((rows.filter (fun r => decide (cutoff < r.timestamp))).insertionSort rowGe).take 100,
    days := days }

/-- An atomic step interleaved on the snapshot cache: local snapshot
construction by the scanner (lines 184-190, touching no shared state), the
single reference assignment `self.current_snapshot = snapshot` (line 192),
or one reader fetching `self.current_snapshot`. -/
inductive CacheAction where
  | build
  | publish (s : CodebaseSnapshot)
  | read (rid : Nat)
deriving DecidableEq

/-- Shared state of the cache plus the log of what each read returned. -/
structure CacheRun where
  cell : Option CodebaseSnapshot
  log : List (Nat × Option CodebaseSnapshot)
deriving DecidableEq

/-- Interleaving semantics of the cache: `build` leaves shared state alone,
`publish` replaces the whole reference in one step, `read` observes the
current reference in one step. -/
def cacheStep (st : CacheRun) : CacheAction → CacheRun
  | CacheAction.build => st
  | CacheAction.publish s => { st with cell := some s }
  | CacheAction.read rid => { st with log := st.log ++ [(rid, st.cell)] }

/-- Run an arbitrary interleaving of cache actions from an initial cell. -/
def runCache (init : Option CodebaseSnapshot) (acts : List CacheAction) : CacheRun :=
  acts.foldl cacheStep { cell := init, log := [] }

theorem entryRes_none_of_ignored_rel (hash : String → String) (root : List String)
    (e : FsEntry) (h : e.relParts.any (fun part => ignore_dirs.contains part) = true) :
    entryRes hash root e = none := by
  have hcond : (root ++ e.relParts).any (fun part => ignore_dirs.contains part) = true := by
    rw [List.any_append, h, Bool.or_true]
  unfold entryRes
  rw [hcond]
  rfl

theorem filterMap_filter_of_none {α β : Type} (f : α → Option β) (p : α → Bool)
    (h : ∀ a, p a = false → f a = none) :
    ∀ l : List α, (l.filter p).filterMap f = l.filterMap f := by
  intro l
  induction l with
  | nil => rfl
  | cons a l ih =>
    cases hp : p a with
    | true => simp [List.filter_cons, hp, List.filterMap_cons, ih]
    | false => simp [List.filter_cons, hp, List.filterMap_cons, h a hp, ih]

/-- C2: every Snapshot produced by a scan satisfies `file_count == len(files)`,
`total_lines == sum(line_count)`, and `category_counts` is exactly the
histogram of the `category` field over its files. -/
theorem c2_snapshot_invariants (hash : String → String) (ts : Int) (root : List String)
    (entries : List FsEntry) :
    (scan_codebase hash ts root entries).total_files =
      (scan_codebase hash ts root entries).files.length ∧
    (scan_codebase hash ts root entries).total_lines =
      ((scan_codebase hash ts root entries).files.map (fun f => f.lines)).sum ∧
    ∀ k, lookupCount (scan_codebase hash ts root entries).file_types k =
      ((scan_codebase hash ts root entries).files.filter
        (fun f => decide (f.file_type = k))).length := by
  rw [scan_eq]
  refine ⟨rfl, rfl, fun k => ?_⟩
  show lookupCount ((entries.filterMap (entryRes hash root)).foldl
    (fun m r => bumpCount m r.file_type) []) k = _
  rw [lookupCount_foldl_bump]
  simp [lookupCount]

/-- C3: scanning an unchanged tree twice yields Snapshots with identical
`file_count`, `total_lines`, `category_counts`, and per-file digests; only
the scan timestamps may differ. -/
theorem c3_scan_idempotent (hash : String → String) (ts₁ ts₂ : Int) (root : List String)
    (entries : List FsEntry) :
    (scan_codebase hash ts₁ root entries).total_files =
      (scan_codebase hash ts₂ root entries).total_files ∧
    (scan_codebase hash ts₁ root entries).total_lines =
      (scan_codebase hash ts₂ root entries).total_lines ∧
    (scan_codebase hash ts₁ root entries).file_types =
      (scan_codebase hash ts₂ root entries).file_types ∧
    (scan_codebase hash ts₁ root entries).files.map (fun f => (f.path, f.content_hash)) =
      (scan_codebase hash ts₂ root entries).files.map (fun f => (f.path, f.content_hash)) :=
  ⟨rfl, rfl, rfl, rfl⟩

/-- C4: an included file whose content fails to decode does not abort the
scan: it is recorded with `line_count = 0` and a digest of its path string,
adds nothing to `total_lines`, and still counts toward `file_count` and its
category's entry in `category_counts`. -/
theorem c4_binary_file_safe (hash : String → String) (ts : Int) (root : List String)
    (pre post : List FsEntry) (e : FsEntry) (size : Nat) (modified : Int) (cat : String)
    (hig : (root ++ e.relParts).any (fun part => ignore_dirs.contains part) = false)
    (hfile : e.isFile = true)
    (hext : code_extensions (pyLower e.ext) = some cat)
    (hstat : e.statRes = some (size, modified))
    (hread : e.readRes = ReadResult.decodeError) :
    (scan_codebase hash ts root (pre ++ e :: post)).total_lines =
      (scan_codebase hash ts root (pre ++ post)).total_lines ∧
    (scan_codebase hash ts root (pre ++ e :: post)).total_files =
      (scan_codebase hash ts root (pre ++ post)).total_files + 1 ∧
    lookupCount (scan_codebase hash ts root (pre ++ e :: post)).file_types cat =
      lookupCount (scan_codebase hash ts root (pre ++ post)).file_types cat + 1 ∧
    ({ path := relPathStr e.relParts, size := size, modified := modified,
       content_hash := hash (absPathStr root e.relParts), file_type := cat,
       lines := 0 } : FileInfo) ∈ (scan_codebase hash ts root (pre ++ e :: post)).files := by
  have hres : entryRes hash root e =
      some { path := relPathStr e.relParts, size := size, modified := modified,
             content_hash := hash (absPathStr root e.relParts), file_type := cat,
             lines := 0 } := by
    unfold entryRes
    rw [hig, hfile, hext, hstat, hread]
    rfl
  rw [scan_eq, scan_eq]
  simp only [List.filterMap_append, List.filterMap_cons, hres]
  refine ⟨?_, ?_, ?_, ?_⟩
  · simp
  · simp [Nat.add_assoc, Nat.add_comm, Nat.add_left_comm]
  · show lookupCount (List.foldl _ [] _) cat = lookupCount (List.foldl _ [] _) cat + 1
    rw [lookupCount_foldl_bump, lookupCount_foldl_bump]
    simp
    omega
  · simp

/-- C5: a file whose tree-relative path has any segment in the ignore set
never appears in the Snapshot and contributes to none of `file_count`,
`total_lines` or `category_counts`: the scan of any entry list equals the
scan of that list with all such entries removed, and every record of a
Snapshot stems from an entry with no ignored segment. -/
theorem c5_ignored_segments (hash : String → String) (ts : Int) (root : List String)
    (entries : List FsEntry) :
    scan_codebase hash ts root entries =
      scan_codebase hash ts root
        (entries.filter
          (fun e => !(e.relParts.any (fun part => ignore_dirs.contains part)))) ∧
    ∀ r ∈ (scan_codebase hash ts root entries).files,
      ∃ e ∈ entries,
        e.relParts.any (fun part => ignore_dirs.contains part) = false ∧
        entryRes hash root e = some r := by
  have hfm :
      (entries.filter
        (fun e => !(e.relParts.any (fun part => ignore_dirs.contains part)))).filterMap
          (entryRes hash root) = entries.filterMap (entryRes hash root) := by
    refine filterMap_filter_of_none _ _ (fun e he => ?_) entries
    refine entryRes_none_of_ignored_rel hash root e ?_
    simpa using he
  constructor
  · rw [scan_eq, scan_eq, hfm]
  · intro r hr
    rw [scan_eq] at hr
    obtain ⟨e, he, hres⟩ := List.mem_filterMap.mp hr
    refine ⟨e, he, ?_, hres⟩
    cases hany : e.relParts.any (fun part => ignore_dirs.contains part) with
    | false => rfl
    | true =>
      rw [entryRes_none_of_ignored_rel hash root e hany] at hres
      cases hres

/-- C10: the ignore test runs over every component of the absolute path,
including directories above the project root, so a root with an ignored
ancestor directory name always scans to an empty Snapshot with
`file_count = 0`. -/
theorem c10_ignored_root (hash : String → String) (ts : Int) (root : List String)
    (entries : List FsEntry)
    (h : root.any (fun part => ignore_dirs.contains part) = true) :
    (scan_codebase hash ts root entries).total_files = 0 ∧
    (scan_codebase hash ts root entries).files = [] ∧
    (scan_codebase hash ts root entries).total_lines = 0 ∧
    (scan_codebase hash ts root entries).file_types = [] := by
  have hfm : entries.filterMap (entryRes hash root) = [] := by
    rw [List.filterMap_eq_nil_iff]
    intro e he
    have hcond : (root ++ e.relParts).any (fun part => ignore_dirs.contains part) = true := by
      rw [List.any_append, h, Bool.true_or]
    unfold entryRes
    rw [hcond]
    rfl
  rw [scan_eq]
  simp [hfm]

/-- Witness for C4 at a concrete tree: a root `proj` holding an undecodable
`blob.py` followed by a decodable one-line `ok.py`. -/
theorem c4_binary_file_witness :
    (scan_codebase (fun s => s) 0 ["proj"]
      ([] ++ (⟨["blob.py"], true, ".py", some (7, 5), ReadResult.decodeError⟩ : FsEntry) ::
        [⟨["ok.py"], true, ".py", some (2, 1), ReadResult.text "hi"⟩])).total_lines =
      (scan_codebase (fun s => s) 0 ["proj"]
        ([] ++ [⟨["ok.py"], true, ".py", some (2, 1), ReadResult.text "hi"⟩])).total_lines ∧
    (scan_codebase (fun s => s) 0 ["proj"]
      ([] ++ (⟨["blob.py"], true, ".py", some (7, 5), ReadResult.decodeError⟩ : FsEntry) ::
        [⟨["ok.py"], true, ".py", some (2, 1), ReadResult.text "hi"⟩])).total_files =
      (scan_codebase (fun s => s) 0 ["proj"]
        ([] ++ [⟨["ok.py"], true, ".py", some (2, 1), ReadResult.text "hi"⟩])).total_files + 1 ∧
    lookupCount
      (scan_codebase (fun s => s) 0 ["proj"]
        ([] ++ (⟨["blob.py"], true, ".py", some (7, 5), ReadResult.decodeError⟩ : FsEntry) ::
          [⟨["ok.py"], true, ".py", some (2, 1), ReadResult.text "hi"⟩])).file_types "python" =
      lookupCount
        (scan_codebase (fun s => s) 0 ["proj"]
          ([] ++ [⟨["ok.py"], true, ".py", some (2, 1), ReadResult.text "hi"⟩])).file_types
        "python" + 1 ∧
    ({ path := relPathStr ["blob.py"], size := 7, modified := 5,
       content_hash := (fun s : String => s) (absPathStr ["proj"] ["blob.py"]),
       file_type := "python", lines := 0 } : FileInfo) ∈
      (scan_codebase (fun s => s) 0 ["proj"]
        ([] ++ (⟨["blob.py"], true, ".py", some (7, 5), ReadResult.decodeError⟩ : FsEntry) ::
          [⟨["ok.py"], true, ".py", some (2, 1), ReadResult.text "hi"⟩])).files :=
  c4_binary_file_safe (fun s => s) 0 ["proj"] []
    [⟨["ok.py"], true, ".py", some (2, 1), ReadResult.text "hi"⟩]
    ⟨["blob.py"], true, ".py", some (7, 5), ReadResult.decodeError⟩
    7 5 "python" (by decide) rfl (by decide) rfl rfl

/-- Witness for C5 at a concrete tree: a file under `node_modules` vanishes
from the scan of a root `proj` that also holds a real `a.py`. -/
theorem c5_ignored_segments_witness :
    ∃ e ∈ [(⟨["node_modules", "x.py"], true, ".py", some (1, 1),
              ReadResult.text "x"⟩ : FsEntry),
           ⟨["a.py"], true, ".py", some (1, 1), ReadResult.text "a"⟩],
      e.relParts.any (fun part => ignore_dirs.contains part) = false ∧
      entryRes (fun s => s) ["proj"] e =
        some { path := relPathStr ["a.py"], size := 1, modified := 1,
               content_hash := (fun s : String => s) "a", file_type := "python",
               lines := 1 } :=
  (c5_ignored_segments (fun s => s) 0 ["proj"]
    [⟨["node_modules", "x.py"], true, ".py", some (1, 1), ReadResult.text "x"⟩,
     ⟨["a.py"], true, ".py", some (1, 1), ReadResult.text "a"⟩]).2
    { path := relPathStr ["a.py"], size := 1, modified := 1,
      content_hash := (fun s : String => s) "a", file_type := "python", lines := 1 }
    (by decide)

/-- Witness for C10 at a concrete tree: a project root living under a
directory named `build` always scans empty. -/
theorem c10_ignored_root_witness :
    (scan_codebase (fun s => s) 0 ["home", "build", "proj"]
      [⟨["a.py"], true, ".py", some (3, 0), ReadResult.text "x"⟩]).total_files = 0 ∧
    (scan_codebase (fun s => s) 0 ["home", "build", "proj"]
      [⟨["a.py"], true, ".py", some (3, 0), ReadResult.text "x"⟩]).files = [] ∧
    (scan_codebase (fun s => s) 0 ["home", "build", "proj"]
      [⟨["a.py"], true, ".py", some (3, 0), ReadResult.text "x"⟩]).total_lines = 0 ∧
    (scan_codebase (fun s => s) 0 ["home", "build", "proj"]
      [⟨["a.py"], true, ".py", some (3, 0), ReadResult.text "x"⟩]).file_types = [] :=
  c10_ignored_root (fun s => s) 0 ["home", "build", "proj"]
    [⟨["a.py"], true, ".py", some (3, 0), ReadResult.text "x"⟩] (by decide)

theorem matchEntry_some_shape (cs : Bool) (sq : String) (lines : List String)
    (i : Nat) (line : String) (m : SearchMatchEntry)
    (h : matchEntry cs sq lines i line = some m) :
    m.line_number = i + 1 ∧
    m.context_before = (if i > 1 then pySlice lines (max 0 (i - 2)) i else []) ∧
    m.context_after =
      (if i < lines.length - 1 then pySlice lines (i + 1) (min lines.length (i + 3))
       else []) := by
  by_cases hc : strContains (if cs = true then line else pyLower line) sq = true
  · simp only [matchEntry] at h
    rw [if_pos hc] at h
    cases h
    exact ⟨rfl, rfl, rfl⟩
  · simp only [matchEntry] at h
    rw [if_neg hc] at h
    cases h

theorem matchLoop_line_lb (cs : Bool) (sq : String) (lines : List String) :
    ∀ (rest : List String) (i : Nat) (m : SearchMatchEntry),
      m ∈ matchLoop cs sq lines i rest → i + 1 ≤ m.line_number := by
  intro rest
  induction rest with
  | nil =>
    intro i m h
    simp [matchLoop] at h
  | cons line rest ih =>
    intro i m h
    rw [matchLoop] at h
    cases hme : matchEntry cs sq lines i line with
    | none =>
      rw [hme] at h
      have := ih (i + 1) m h
      omega
    | some m0 =>
      rw [hme] at h
      rcases List.mem_cons.mp h with h1 | h2
      · subst h1
        have := (matchEntry_some_shape cs sq lines i line m hme).1
        omega
      · have := ih (i + 1) m h2
        omega

theorem matchLoop_pairwise (cs : Bool) (sq : String) (lines : List String) :
    ∀ (rest : List String) (i : Nat),
      List.Pairwise (fun a b => a.line_number < b.line_number)
        (matchLoop cs sq lines i rest) := by
  intro rest
  induction rest with
  | nil => intro i; simp [matchLoop]
  | cons line rest ih =>
    intro i
    rw [matchLoop]
    cases hme : matchEntry cs sq lines i line with
    | none => exact ih (i + 1)
    | some m0 =>
      refine List.Pairwise.cons ?_ (ih (i + 1))
      intro b hb
      have hb1 := matchLoop_line_lb cs sq lines rest (i + 1) b hb
      have hm0 := (matchEntry_some_shape cs sq lines i line m0 hme).1
      omega

theorem matchLoop_context (cs : Bool) (sq : String) (lines : List String) :
    ∀ (rest : List String) (i : Nat), rest = lines.drop i →
      ∀ m ∈ matchLoop cs sq lines i rest,
        ∃ j, j < lines.length ∧ m.line_number = j + 1 ∧
          m.context_before = (if j > 1 then pySlice lines (max 0 (j - 2)) j else []) ∧
          m.context_after =
            (if j < lines.length - 1 then pySlice lines (j + 1) (min lines.length (j + 3))
             else []) := by
  intro rest
  induction rest with
  | nil =>
    intro i _ m h
    simp [matchLoop] at h
  | cons line rest ih =>
    intro i hdrop m h
    have hi : i < lines.length := by
      by_contra hns
      push_neg at hns
      rw [List.drop_eq_nil_of_le hns] at hdrop
      cases hdrop
    have hrest : rest = lines.drop (i + 1) := by
      have h1 := congrArg (List.drop 1) hdrop
      simpa [List.drop_drop] using h1
    rw [matchLoop] at h
    cases hme : matchEntry cs sq lines i line with
    | none =>
      rw [hme] at h
      exact ih (i + 1) hrest m h
    | some m0 =>
      rw [hme] at h
      rcases List.mem_cons.mp h with h1 | h2
      · subst h1
        obtain ⟨ha, hb, hc⟩ := matchEntry_some_shape cs sq lines i line m hme
        exact ⟨i, hi, ha, hb, hc⟩
      · exact ih (i + 1) hrest m h2

theorem matchingLines_context (cs : Bool) (sq : String) (lines : List String)
    (m : SearchMatchEntry) (h : m ∈ matchingLines cs sq lines) :
    ∃ i, i < lines.length ∧ m.line_number = i + 1 ∧
      m.context_before = (if 2 ≤ i then (lines.drop (i - 2)).take 2 else []) ∧
      m.context_after =
        (if i + 1 < lines.length then (lines.drop (i + 1)).take 2 else []) ∧
      (i + 3 ≤ lines.length → m.context_after.length = 2) := by
  obtain ⟨j, hj, h1, h2, h3⟩ :=
    matchLoop_context cs sq lines lines 0 (List.drop_zero lines).symm m h
  have hafter :
      m.context_after = (if j + 1 < lines.length then (lines.drop (j + 1)).take 2 else []) := by
    rw [h3]
    by_cases hc : j < lines.length - 1
    · rw [if_pos hc, if_pos (by omega : j + 1 < lines.length)]
      unfold pySlice
      by_cases hc2 : j + 3 ≤ lines.length
      · have hmin : min lines.length (j + 3) - (j + 1) = 2 := by omega
        rw [hmin]
      · have hmin : min lines.length (j + 3) - (j + 1) = lines.length - (j + 1) := by omega
        rw [hmin]
        rw [List.take_of_length_le (by rw [List.length_drop]),
            List.take_of_length_le (by rw [List.length_drop]; omega)]
    · rw [if_neg hc, if_neg (by omega : ¬ j + 1 < lines.length)]
  refine ⟨j, hj, h1, ?_, hafter, ?_⟩
  · rw [h2]
    by_cases hc : j > 1
    · rw [if_pos hc, if_pos (by omega : 2 ≤ j)]
      unfold pySlice
      have hm : max 0 (j - 2) = j - 2 := by omega
      rw [hm]
      have ht : j - (j - 2) = 2 := by omega
      rw [ht]
    · rw [if_neg hc, if_neg (by omega : ¬ 2 ≤ j)]
  · intro hlen
    rw [hafter, if_pos (by omega : j + 1 < lines.length)]
    rw [List.length_take, List.length_drop]
    omega

theorem searchLoop_ok_results (disk : String → DiskRead) (ft : Option String)
    (cs : Bool) (sq : String) :
    ∀ (files : List FileInfo) (rs : List FileResult),
      searchLoop disk ft cs sq files = Except.ok rs →
      ∀ fr ∈ rs, ∃ content,
        fr.matches' = (matchingLines cs sq (splitlines content)).take 10 := by
  intro files
  induction files with
  | nil =>
    intro rs h fr hfr
    rw [searchLoop] at h
    cases h
    cases hfr
  | cons f rest ih =>
    intro rs h fr hfr
    rw [searchLoop] at h
    by_cases hskip : typeSkip ft f = true
    · rw [if_pos hskip] at h
      exact ih rs h fr hfr
    · rw [if_neg hskip] at h
      cases hd : disk f.path with
      | notFound =>
        rw [hd] at h
        exact ih rs h fr hfr
      | decodeError =>
        rw [hd] at h
        exact ih rs h fr hfr
      | otherError =>
        rw [hd] at h
        cases h
      | text content =>
        rw [hd] at h
        simp only [] at h
        by_cases hwhole :
            strContains (if cs = true then content else pyLower content) sq = true
        · rw [if_pos hwhole] at h
          by_cases hemp : (matchingLines cs sq (splitlines content)).isEmpty = true
          · rw [if_pos hemp] at h
            exact ih rs h fr hfr
          · rw [if_neg hemp] at h
            cases hrec : searchLoop disk ft cs sq rest with
            | error e =>
              rw [hrec] at h
              cases h
            | ok tail =>
              rw [hrec] at h
              cases h
              rcases List.mem_cons.mp hfr with h1 | h2
              · subst h1
                exact ⟨content, rfl⟩
              · exact ih tail hrec fr h2
        · rw [if_neg hwhole] at h
          exact ih rs h fr hfr

theorem search_content_ok_results (snapshot : CodebaseSnapshot) (disk : String → DiskRead)
    (q : String) (ft : Option String) (cs : Bool) (resp : SearchResponse)
    (h : search_content snapshot disk q ft cs = Except.ok resp) :
    ∀ fr ∈ resp.results, ∃ content,
      fr.matches' =
        (matchingLines cs (if cs = true then pyStrip q else pyLower (pyStrip q))
          (splitlines content)).take 10 := by
  simp only [search_content] at h
  by_cases hq : pyStrip q = ""
  · rw [if_pos hq] at h
    cases h
  · rw [if_neg hq] at h
    cases hrec : searchLoop disk ft cs
        (if cs = true then pyStrip q else pyLower (pyStrip q)) snapshot.files with
    | error e =>
      rw [hrec] at h
      cases h
    | ok results =>
      rw [hrec] at h
      cases h
      intro fr hfr
      exact searchLoop_ok_results disk ft cs _ snapshot.files results hrec fr hfr

theorem searchLoop_skip (disk : String → DiskRead) (ft : Option String) (cs : Bool)
    (sq : String) (f : FileInfo) (post : List FileInfo)
    (hf : disk f.path = DiskRead.notFound ∨ disk f.path = DiskRead.decodeError) :
    ∀ pre : List FileInfo,
      searchLoop disk ft cs sq (pre ++ f :: post) = searchLoop disk ft cs sq (pre ++ post) := by
  intro pre
  induction pre with
  | nil =>
    simp only [List.nil_append]
    rw [searchLoop]
    by_cases ht : typeSkip ft f = true
    · rw [if_pos ht]
    · rw [if_neg ht]
      rcases hf with h | h <;> rw [h]
  | cons g pre ih =>
    simp only [List.cons_append]
    rw [searchLoop]
    conv_rhs => rw [searchLoop]
    rw [ih]

/-- C1 (amended): for every file with at least one matching line, search
returns at most 10 match entries in ascending line-number order;
`context_before` holds exactly the 2 immediately preceding raw lines when
the match is on line 3 or later and is empty otherwise (in particular a
match on line 2 gets no preceding context), and `context_after` holds the
at most 2 immediately following raw lines, clipped at end of file (a match
with 2 or more lines after it gets exactly 2; a match on the last line
gets none). -/
theorem c1_search_context :
    (∀ (snapshot : CodebaseSnapshot) (disk : String → DiskRead) (q : String)
        (ft : Option String) (cs : Bool) (resp : SearchResponse),
        search_content snapshot disk q ft cs = Except.ok resp →
        ∀ fr ∈ resp.results,
          fr.matches'.length ≤ 10 ∧
          List.Pairwise (fun a b => a.line_number < b.line_number) fr.matches' ∧
          ∀ m ∈ fr.matches',
            m.context_before.length ≤ 2 ∧ m.context_after.length ≤ 2) ∧
    (∀ (cs : Bool) (sq : String) (lines : List String),
        ∀ m ∈ matchingLines cs sq lines,
          ∃ i, i < lines.length ∧ m.line_number = i + 1 ∧
            m.context_before = (if 2 ≤ i then (lines.drop (i - 2)).take 2 else []) ∧
            m.context_after =
              (if i + 1 < lines.length then (lines.drop (i + 1)).take 2 else []) ∧
            (i + 3 ≤ lines.length → m.context_after.length = 2)) := by
  constructor
  · intro snapshot disk q ft cs resp h fr hfr
    obtain ⟨content, hm⟩ :=
      search_content_ok_results snapshot disk q ft cs resp h fr hfr
    refine ⟨?_, ?_, ?_⟩
    · rw [hm, List.length_take]
      exact min_le_left _ _
    · rw [hm]
      exact List.Pairwise.sublist (List.take_sublist 10 _)
        (matchLoop_pairwise cs _ (splitlines content) (splitlines content) 0)
    · intro m hmm
      rw [hm] at hmm
      have hsub : m ∈ matchingLines cs
          (if cs = true then pyStrip q else pyLower (pyStrip q)) (splitlines content) :=
        List.take_subset 10 _ hmm
      obtain ⟨i, _, _, h2, h3, _⟩ := matchingLines_context cs _ (splitlines content) m hsub
      constructor
      · rw [h2]
        split
        · rw [List.length_take]
          exact min_le_left _ _
        · simp
      · rw [h3]
        split
        · rw [List.length_take]
          exact min_le_left _ _
        · simp
  · intro cs sq lines m hm
    exact matchingLines_context cs sq lines m hm

/-- Snapshot with one 5-line python file, used against claim C1. -/
def snapC1 : CodebaseSnapshot :=
  { timestamp := 0, total_files := 1, total_lines := 5,
    file_types := [("python", 1)],
    files := [{ path := "a.py", size := 9, modified := 0, content_hash := "h",
                file_type := "python", lines := 5 }] }

/-- Disk content for the C1 scenario: the query `m` sits on line 2 of a
5-line file, with one line before it and three lines after it. -/
def diskC1 : String → DiskRead :=
  fun _ => DiskRead.text "a\nm\nb\nc\nd"

/-- The per-file result the search actually produces in the C1 scenario. -/
def frC1 : FileResult :=
  { file := "a.py", file_type := "python",
    matches' := [{ line_number := 2, content := "m",
                   context_before := [], context_after := ["b", "c"] }] }

/-- The full response the search actually produces in the C1 scenario. -/
def respC1 : SearchResponse :=
  { query := "m", results := [frC1], total_files_searched := 1, files_with_matches := 1 }

/-- C1 counterexample: in the file `a\nm\nb\nc\nd` the query `m` matches
line 2, which has 3 following lines and 1 preceding line; the claim demands
exactly 3 lines of following context and all existing preceding lines, but
the code returns following context `[b, c]` of length 2 and empty preceding
context. -/
theorem c1_search_context_counterexample :
    search_content snapC1 diskC1 "m" none true = Except.ok respC1 ∧
    respC1 =
      { query := "m",
        results := [{ file := "a.py", file_type := "python",
                      matches' := [{ line_number := 2, content := "m",
                                     context_before := [], context_after := ["b", "c"] }] }],
        total_files_searched := 1, files_with_matches := 1 } ∧
    (["b", "c"] : List String).length ≠ 3 ∧ ([] : List String) ≠ ["a"] :=
  ⟨rfl, rfl, by decide, by decide⟩

/-- Witness for C1 at the concrete C1 scenario. -/
theorem c1_search_context_witness :
    (frC1.matches'.length ≤ 10 ∧
     List.Pairwise (fun a b => a.line_number < b.line_number) frC1.matches' ∧
     ∀ m ∈ frC1.matches', m.context_before.length ≤ 2 ∧ m.context_after.length ≤ 2) ∧
    (∃ i, i < (["a", "m", "b", "c", "d"] : List String).length ∧
      ({ line_number := 2, content := "m", context_before := [],
         context_after := ["b", "c"] } : SearchMatchEntry).line_number = i + 1 ∧
      ({ line_number := 2, content := "m", context_before := [],
         context_after := ["b", "c"] } : SearchMatchEntry).context_before =
        (if 2 ≤ i then ((["a", "m", "b", "c", "d"] : List String).drop (i - 2)).take 2
         else []) ∧
      ({ line_number := 2, content := "m", context_before := [],
         context_after := ["b", "c"] } : SearchMatchEntry).context_after =
        (if i + 1 < (["a", "m", "b", "c", "d"] : List String).length then
          ((["a", "m", "b", "c", "d"] : List String).drop (i + 1)).take 2
         else []) ∧
      (i + 3 ≤ (["a", "m", "b", "c", "d"] : List String).length →
        ({ line_number := 2, content := "m", context_before := [],
           context_after := ["b", "c"] } : SearchMatchEntry).context_after.length = 2)) :=
  ⟨c1_search_context.1 snapC1 diskC1 "m" none true respC1 rfl frC1 (by decide),
   c1_search_context.2 true "m" ["a", "m", "b", "c", "d"]
     { line_number := 2, content := "m", context_before := [], context_after := ["b", "c"] }
     (by decide)⟩

/-- Snapshot with one python file, used against claim C7. -/
def snapC7 : CodebaseSnapshot :=
  { timestamp := 0, total_files := 1, total_lines := 1,
    file_types := [("python", 1)],
    files := [{ path := "a.py", size := 3, modified := 0, content_hash := "h",
                file_type := "python", lines := 1 }] }

/-- Disk behaviour for the C7 counterexample: reading the snapshot's file
raises an exception that is neither `UnicodeDecodeError` nor
`FileNotFoundError` (for instance a `PermissionError`). -/
def diskC7 : String → DiskRead :=
  fun _ => DiskRead.otherError

/-- C7 counterexample: the search handler only catches `UnicodeDecodeError`
and `FileNotFoundError`; a file whose read fails in any other way (for
instance with a `PermissionError`) is not silently excluded — the whole
search aborts with an error, contradicting the claim that the search
completes normally whatever the kind of read failure. -/
theorem c7_unreadable_skipped_counterexample :
    search_content snapC7 diskC7 "x" none false = Except.error SearchError.readError :=
  rfl

/-- C7 (amended): a file of the current snapshot whose read at query time
raises `FileNotFoundError` (the file was removed) or `UnicodeDecodeError`
(the content is undecodable) is silently excluded: removing it from the
snapshot changes neither the search's results, nor its match count, nor
whether it errors. Read failures of any other kind are not handled and
abort the search. -/
theorem c7_unreadable_skipped (disk : String → DiskRead) (q : String)
    (ft : Option String) (cs : Bool) (s s' : CodebaseSnapshot)
    (pre post : List FileInfo) (f : FileInfo)
    (hf : disk f.path = DiskRead.notFound ∨ disk f.path = DiskRead.decodeError)
    (hs : s.files = pre ++ f :: post) (hs' : s'.files = pre ++ post) :
    (search_content s disk q ft cs).map (fun r => (r.results, r.files_with_matches)) =
      (search_content s' disk q ft cs).map (fun r => (r.results, r.files_with_matches)) := by
  simp only [search_content]
  by_cases hq : pyStrip q = ""
  · rw [if_pos hq, if_pos hq]
  · rw [if_neg hq, if_neg hq]
    rw [hs, hs', searchLoop_skip disk ft cs _ f post hf pre]
    cases searchLoop disk ft cs
        (if cs = true then pyStrip q else pyLower (pyStrip q)) (pre ++ post) with
    | error e => rfl
    | ok results => rfl

/-- Removed file used by the C7 witness. -/
def fGoneW : FileInfo :=
  { path := "gone.py", size := 1, modified := 0, content_hash := "h1",
    file_type := "python", lines := 1 }

/-- Surviving file used by the C7 witness. -/
def fOkW : FileInfo :=
  { path := "ok.py", size := 1, modified := 0, content_hash := "h2",
    file_type := "python", lines := 1 }

/-- Disk behaviour for the C7 witness: `gone.py` has been removed since the
snapshot was taken, `ok.py` holds the query. -/
def diskW7 : String → DiskRead :=
  fun p => if p = "gone.py" then DiskRead.notFound else DiskRead.text "q"

/-- Witness for C7 at a concrete snapshot pair. -/
theorem c7_unreadable_skipped_witness :
    (search_content { timestamp := 0, total_files := 2, total_lines := 2,
                      file_types := [("python", 2)], files := [fGoneW, fOkW] }
        diskW7 "q" none false).map (fun r => (r.results, r.files_with_matches)) =
      (search_content { timestamp := 0, total_files := 1, total_lines := 1,
                        file_types := [("python", 1)], files := [fOkW] }
        diskW7 "q" none false).map (fun r => (r.results, r.files_with_matches)) :=
  c7_unreadable_skipped diskW7 "q" none false _ _ [] [fOkW] fGoneW
    (Or.inl rfl) rfl rfl

/-- C9: `total_files_searched` always reports the size of the whole current
snapshot, even when a type filter narrows the searched files and even when
some files are skipped as unreadable. -/
theorem c9_total_files_searched (snapshot : CodebaseSnapshot) (disk : String → DiskRead)
    (q : String) (ft : Option String) (cs : Bool) (resp : SearchResponse)
    (h : search_content snapshot disk q ft cs = Except.ok resp) :
    resp.total_files_searched = snapshot.files.length := by
  simp only [search_content] at h
  by_cases hq : pyStrip q = ""
  · rw [if_pos hq] at h
    cases h
  · rw [if_neg hq] at h
    cases hrec : searchLoop disk ft cs
        (if cs = true then pyStrip q else pyLower (pyStrip q)) snapshot.files with
    | error e =>
      rw [hrec] at h
      cases h
    | ok results =>
      rw [hrec] at h
      cases h
      rfl

/-- Snapshot used by the C9 witness: one python file, one readable rust
file, and one rust file removed from disk. -/
def snapW9 : CodebaseSnapshot :=
  { timestamp := 0, total_files := 3, total_lines := 3,
    file_types := [("python", 1), ("rust", 2)],
    files := [{ path := "a.py", size := 1, modified := 0, content_hash := "h1",
                file_type := "python", lines := 1 },
              { path := "b.rs", size := 1, modified := 0, content_hash := "h2",
                file_type := "rust", lines := 1 },
              { path := "c.rs", size := 1, modified := 0, content_hash := "h3",
                file_type := "rust", lines := 1 }] }

/-- Disk behaviour for the C9 witness. -/
def diskW9 : String → DiskRead :=
  fun p => if p = "c.rs" then DiskRead.notFound else DiskRead.text "q"

/-- Witness for C9: a search filtered to rust files, with one rust file
unreadable, still reports all 3 snapshot files as searched. -/
theorem c9_total_files_searched_witness :
    ({ query := "q",
       results := [{ file := "b.rs", file_type := "rust",
                     matches' := [{ line_number := 1, content := "q",
                                    context_before := [], context_after := [] }] }],
       total_files_searched := 3, files_with_matches := 1 } : SearchResponse).total_files_searched =
      snapW9.files.length :=
  c9_total_files_searched snapW9 diskW9 "q" (some "rust") false _ rfl

/-- C6: the history query returns only entries strictly newer than
`now - days*24*60*60`, at most 100 of them, ordered newest first. -/
theorem c6_history_bounds (rows : List SnapshotRow) (now : Int) (days : Int) :
    (get_history rows now days).history.length ≤ 100 ∧
    (∀ r ∈ (get_history rows now days).history,
      now - days * 24 * 60 * 60 < r.timestamp) ∧
    List.Pairwise (fun a b => b.timestamp ≤ a.timestamp)
      (get_history rows now days).history := by
  refine ⟨?_, ?_, ?_⟩
  · simp only [get_history]
    rw [List.length_take]
    exact min_le_left _ _
  · intro r hr
    simp only [get_history] at hr
    have hr2 := List.take_subset _ _ hr
    have hr3 := (List.perm_insertionSort rowGe _).subset hr2
    have hr4 := List.mem_filter.mp hr3
    exact of_decide_eq_true hr4.2
  · simp only [get_history]
    refine List.Pairwise.sublist (List.take_sublist _ _) ?_
    exact List.sorted_insertionSort rowGe _

/-- Rows used by the C6 witness. -/
def rowsW6 : List SnapshotRow :=
  [{ timestamp := 100, total_files := 1, total_lines := 1,
     file_types := [("python", 1)], git_commit := none },
   { timestamp := 999000, total_files := 2, total_lines := 2,
     file_types := [("python", 2)], git_commit := some "abc" },
   { timestamp := 999500, total_files := 3, total_lines := 3,
     file_types := [("python", 3)], git_commit := none }]

/-- Witness for C6 at a concrete store: `days = 7` around `now = 1000000`. -/
theorem c6_history_bounds_witness :
    (get_history rowsW6 1000000 7).history.length ≤ 100 ∧
    (1000000 - 7 * 24 * 60 * 60 <
      ({ timestamp := 999500, total_files := 3, total_lines := 3,
         file_types := [("python", 3)], git_commit := none } : SnapshotRow).timestamp) ∧
    List.Pairwise (fun a b => b.timestamp ≤ a.timestamp)
      (get_history rowsW6 1000000 7).history :=
  ⟨(c6_history_bounds rowsW6 1000000 7).1,
   (c6_history_bounds rowsW6 1000000 7).2.1
     { timestamp := 999500, total_files := 3, total_lines := 3,
       file_types := [("python", 3)], git_commit := none } (by decide),
   (c6_history_bounds rowsW6 1000000 7).2.2⟩

theorem runCache_log_values (s_old s_new : CodebaseSnapshot) :
    ∀ (acts : List CacheAction) (st : CacheRun),
      (∀ s, CacheAction.publish s ∈ acts → s = s_new) →
      (st.cell = some s_old ∨ st.cell = some s_new) →
      (∀ p ∈ st.log, p.2 = some s_old ∨ p.2 = some s_new) →
      ∀ p ∈ (acts.foldl cacheStep st).log, p.2 = some s_old ∨ p.2 = some s_new := by
  intro acts
  induction acts with
  | nil =>
    intro st _ _ hlog p hp
    exact hlog p hp
  | cons a acts ih =>
    intro st hpub hcell hlog p hp
    rw [List.foldl_cons] at hp
    have hpub' : ∀ s, CacheAction.publish s ∈ acts → s = s_new := by
      intro s hs
      exact hpub s (List.mem_cons_of_mem a hs)
    cases a with
    | build => exact ih st hpub' hcell hlog p hp
    | publish s =>
      have hsnew : s = s_new := hpub s (List.mem_cons_self _ _)
      refine ih (cacheStep st (CacheAction.publish s)) hpub' ?_ ?_ p hp
      · right
        show some s = some s_new
        rw [hsnew]
      · intro p' hp'
        exact hlog p' hp'
    | read rid =>
      refine ih (cacheStep st (CacheAction.read rid)) hpub' hcell ?_ p hp
      intro p' hp'
      have hp'' : p' ∈ st.log ++ [(rid, st.cell)] := hp'
      rcases List.mem_append.mp hp'' with h1 | h2
      · exact hlog p' h1
      · rcases List.mem_singleton.mp h2 with rfl
        exact hcell

/-- C8: replacing the current snapshot is a single atomic reference
assignment of a fully built snapshot, so under any interleaving of one
scan-and-publish with concurrent reads, every read observes either the
entire prior snapshot or the entire newly scanned snapshot — never a mix —
and in particular never a snapshot with `total_files` different from the
length of its `files`. -/
theorem c8_atomic_replace (hash : String → String) (ts : Int) (root : List String)
    (entries : List FsEntry) (s_old : CodebaseSnapshot) (acts : List CacheAction)
    (hpub : ∀ s, CacheAction.publish s ∈ acts → s = scan_codebase hash ts root entries)
    (hold : s_old.total_files = s_old.files.length) :
    ∀ p ∈ (runCache (some s_old) acts).log,
      (p.2 = some s_old ∨ p.2 = some (scan_codebase hash ts root entries)) ∧
      ∀ s, p.2 = some s → s.total_files = s.files.length := by
  intro p hp
  have hval := runCache_log_values s_old (scan_codebase hash ts root entries) acts
    { cell := some s_old, log := [] } hpub (Or.inl rfl) (by intro p' hp'; cases hp') p hp
  refine ⟨hval, ?_⟩
  intro s hs
  rcases hval with h | h
  · rw [hs] at h
    cases h
    exact hold
  · rw [hs] at h
    cases h
    rw [scan_eq]

/-- The snapshot published by the scan in the C8 witness scenario. -/
def snapNewW8 : CodebaseSnapshot :=
  scan_codebase (fun s => s) 10 ["proj"]
    [⟨["a.py"], true, ".py", some (2, 1), ReadResult.text "hi"⟩]

/-- The prior snapshot in the C8 witness scenario. -/
def snapOldW8 : CodebaseSnapshot :=
  { timestamp := 0, total_files := 0, total_lines := 0, file_types := [], files := [] }

/-- Witness for C8 at a concrete interleaving: a read before the scan's
local construction, one between construction and publish, and one after
publish. -/
theorem c8_atomic_replace_witness :
    ((2, some snapNewW8) : Nat × Option CodebaseSnapshot).2 = some snapOldW8 ∨
    ((2, some snapNewW8) : Nat × Option CodebaseSnapshot).2 =
      some (scan_codebase (fun s => s) 10 ["proj"]
        [⟨["a.py"], true, ".py", some (2, 1), ReadResult.text "hi"⟩]) :=
  (c8_atomic_replace (fun s => s) 10 ["proj"]
    [⟨["a.py"], true, ".py", some (2, 1), ReadResult.text "hi"⟩]
    snapOldW8
    [CacheAction.read 0, CacheAction.build, CacheAction.read 1,
     CacheAction.publish snapNewW8, CacheAction.read 2]
    (by
      intro s hs
      simp at hs
      subst hs
      rfl)
    rfl
    (2, some snapNewW8)
    (by decide)).1
